import Mathlib

/-!
Verification of the OBBM-League (botbowl) gym environment and web hosting
API, as a shallow embedding of `botbowl/ai/env.py` and `botbowl/web/api.py`.

Machine floats are modelled as rationals; Python dicts with distinct keys
are modelled as association lists in insertion order; operations that would
raise in Python are modelled with `Option`.
-/

namespace BotBowl

/-- Engine action-type constants referenced by `env.py` (the 20 simple
action types, the 17 positional action types, and `END_SETUP`). -/
inductive ActionType where
  | START_GAME
  | HEADS
  | TAILS
  | KICK
  | RECEIVE
  | END_PLAYER_TURN
  | USE_REROLL
  | DONT_USE_REROLL
  | USE_SKILL
  | DONT_USE_SKILL
  | END_TURN
  | STAND_UP
  | SELECT_ATTACKER_DOWN
  | SELECT_BOTH_DOWN
  | SELECT_PUSH
  | SELECT_DEFENDER_STUMBLES
  | SELECT_DEFENDER_DOWN
  | SELECT_NONE
  | USE_BRIBE
  | DONT_USE_BRIBE
  | PLACE_BALL
  | PUSH
  | FOLLOW_UP
  | MOVE
  | BLOCK
  | PASS
  | FOUL
  | HANDOFF
  | LEAP
  | STAB
  | SELECT_PLAYER
  | START_MOVE
  | START_BLOCK
  | START_BLITZ
  | START_PASS
  | START_FOUL
  | START_HANDOFF
  | END_SETUP
  deriving DecidableEq, Repr

/-- A board square, `game.get_square(x, y)`. -/
structure Square where
  x : Nat
  y : Nat
  deriving DecidableEq, Repr

/-- The engine `Action` object: an action type with an optional board
position and an optional acting-player position (`action.player.position`,
used by `_compute_action_idx` when `action.position` is absent). -/
structure GameAction where
  action_type : ActionType
  position : Option Square
  player_position : Option Square
  deriving DecidableEq, Repr

/-- A formation object (external `Formation` type): carries the structured
setup actions that `formation.actions(game, team)` produces. -/
structure Formation where
  name : String
  setup_actions : List GameAction
  deriving DecidableEq, Repr

/-- The fixed 20-entry simple-action catalogue from `EnvConf.__init__`. -/
def base_simple_action_types : List ActionType :=
  [ .START_GAME, .HEADS, .TAILS, .KICK, .RECEIVE, .END_PLAYER_TURN,
    .USE_REROLL, .DONT_USE_REROLL, .USE_SKILL, .DONT_USE_SKILL,
    .END_TURN, .STAND_UP, .SELECT_ATTACKER_DOWN, .SELECT_BOTH_DOWN,
    .SELECT_PUSH, .SELECT_DEFENDER_STUMBLES, .SELECT_DEFENDER_DOWN,
    .SELECT_NONE, .USE_BRIBE, .DONT_USE_BRIBE ]

/-- The fixed 17-entry positional-action catalogue from `EnvConf.__init__`. -/
def positional_action_types : List ActionType :=
  [ .PLACE_BALL, .PUSH, .FOLLOW_UP, .MOVE, .BLOCK, .PASS, .FOUL,
    .HANDOFF, .LEAP, .STAB, .SELECT_PLAYER, .START_MOVE, .START_BLOCK,
    .START_BLITZ, .START_PASS, .START_FOUL, .START_HANDOFF ]

/-- An entry of `simple_action_types`: either an `ActionType` constant or a
`Formation` object (formations are appended to the simple list). -/
abbrev SimpleEntry := ActionType ⊕ Formation

/-- Model of `EnvConf`: the part relevant to the action-space ordering.  The
formation list is the board-size defaults plus any extra formations; it is
kept abstract here since formations are loaded from external files. -/
structure EnvConf where
  formations : List Formation

/-- Model of `EnvConf.simple_action_types`: the 20 fixed simple action types
followed by the formations. -/
def EnvConf.simple_action_types (c : EnvConf) : List SimpleEntry :=
  base_simple_action_types.map Sum.inl ++ c.formations.map Sum.inr

/-- Model of `EnvConf.action_types`, the concatenation
`simple_action_types + positional_action_types`. -/
def EnvConf.action_types (c : EnvConf) : List SimpleEntry :=
  c.simple_action_types ++ positional_action_types.map Sum.inl

/-- The environment data used by action decoding/encoding:
its configuration and the arena width/height. -/
structure Env where
  conf : EnvConf
  width : Nat
  height : Nat

/-- The square count `board_squares = width * height`. -/
def Env.board_squares (e : Env) : Nat := e.width * e.height

/-- List membership is decidable for any type with decidable equality
(this Mathlib version only ships the instance through `LawfulBEq`). -/
instance listMemDecidable {α : Type} [DecidableEq α] (x : α) (l : List α) :
    Decidable (x ∈ l) :=
  decidable_of_iff (∃ y ∈ l, x = y) (by simp [eq_comm])

/-- Python's `list.index`: position of the first occurrence (total here;
the source only calls it after a membership test). -/
def pyIndexOf {α : Type} [DecidableEq α] : List α → α → Nat
  | [], _ => 0
  | x :: xs, a => if x = a then 0 else pyIndexOf xs a + 1

/-- Model of `BotBowlEnv._compute_action` with the flip choice given explicitly:
decodes an optional action index into the list of engine actions to step
with.  `none` marks a lookup that would raise in Python. -/
def compute_action (e : Env) (action_idx : Option Nat) (flip : Bool) :
    Option (List (Option GameAction)) :=
  match action_idx with
  | none => some [none]
  | some idx =>
    let sats := e.conf.simple_action_types
    if idx < sats.length then
      if sats.length - e.conf.formations.length ≤ idx then
        match sats.get? idx with
        | some (Sum.inr f) =>
            some ((f.setup_actions.map some) ++ [some ⟨ActionType.END_SETUP, none, none⟩])
        | _ => none
      else
        match sats.get? idx with
        | some (Sum.inl t) => some [some ⟨t, none, none⟩]
        | _ => none
    else
      let spatial_idx := idx - sats.length
      let spatial_pos_idx := spatial_idx % e.board_squares
      let spatial_y := spatial_pos_idx / e.width
      let spatial_x0 := spatial_pos_idx % e.width
      let spatial_x := if flip then e.width - spatial_x0 - 1 else spatial_x0
      match positional_action_types.get? (spatial_idx / e.board_squares) with
      | some t => some [some ⟨t, some ⟨spatial_x, spatial_y⟩, none⟩]
      | none => none

/-- Model of `BotBowlEnv._compute_action_idx` with the flip choice given
explicitly: encodes an engine action back into its action index.
`none` marks the `AttributeError` cases of the source. -/
def compute_action_idx (e : Env) (a : GameAction) (flip : Bool) : Option Nat :=
  if (Sum.inl a.action_type : SimpleEntry) ∈ e.conf.simple_action_types then
    some (pyIndexOf e.conf.simple_action_types (Sum.inl a.action_type))
  else if a.action_type ∈ positional_action_types then
    match (match a.position with
           | some p => some p
           | none => a.player_position) with
    | none => none
    | some pos =>
      let x := if flip then e.width - pos.x - 1 else pos.x
      let spatial_index := x + pos.y * e.width
      let position_action_index := pyIndexOf positional_action_types a.action_type
      some (e.conf.simple_action_types.length +
            e.board_squares * position_action_index + spatial_index)
  else
    none

/-! ## Observation model (`BotBowlEnv.get_state`) -/

/-- The engine weather types checked one by one in `get_state`. -/
inductive WeatherType where
  | SWELTERING_HEAT | VERY_SUNNY | NICE | POURING_RAIN | BLIZZARD
  deriving DecidableEq, Repr

/-- The per-player action types checked one by one in `get_state`
(plus a constructor for any other engine value, e.g. throw-bomb). -/
inductive PlayerActionType where
  | MOVE | BLOCK | BLITZ | PASS | HANDOFF | FOUL | OTHER
  deriving DecidableEq, Repr

/-- The engine procedure types appearing in `EnvConf.procedures` and in
`PPCGWrapper` (the 23 tracked ones plus `Touchdown`). -/
inductive ProcedureType where
  | StartGame | CoinTossFlip | CoinTossKickReceive | Setup | PlaceBall
  | HighKick | Touchback | Turn | MoveAction | BlockAction | BlitzAction
  | PassAction | HandoffAction | FoulAction | ThrowBombAction | Block
  | Push | FollowUp | Apothecary | PassAttempt | Interception | Reroll
  | Ejection | Touchdown
  deriving DecidableEq, Repr

/-- Model of `EnvConf.procedures`: the 23 procedure types tracked as non-spatial
features, in source order. -/
def tracked_procedures : List ProcedureType :=
  [ .StartGame, .CoinTossFlip, .CoinTossKickReceive, .Setup, .PlaceBall,
    .HighKick, .Touchback, .Turn, .MoveAction, .BlockAction, .BlitzAction,
    .PassAction, .HandoffAction, .FoulAction, .ThrowBombAction, .Block,
    .Push, .FollowUp, .Apothecary, .PassAttempt, .Interception, .Reroll,
    .Ejection ]

/-- The 11 per-team scalar features read from `team.state` in `get_state`. -/
structure TeamStats where
  score : ℚ
  turn : ℚ
  rerolls_start : ℚ
  rerolls : ℚ
  ass_coaches : ℚ
  cheerleaders : ℚ
  bribes : ℚ
  babes : ℚ
  apothecaries : ℚ
  reroll_used : Bool
  fame : ℚ
  deriving DecidableEq, Repr

/-- The 6 turn-level flags read in `get_state` when a turn is in progress. -/
structure TurnInfo where
  blitz_available : Bool
  pass_available : Bool
  handoff_available : Bool
  foul_available : Bool
  is_blitz : Bool
  is_quick_snap : Bool
  deriving DecidableEq, Repr

/-- Everything `get_state` reads from the live `Game` object: the engine
state at observation time, with external queries recorded as fields. -/
structure GameObs where
  half : ℚ
  round : ℚ
  weather : WeatherType
  current_team_eq_active : Bool
  kicking_first_half_eq_active : Bool
  kicking_this_drive_eq_active : Bool
  reserves_active : Nat
  knocked_out_active : Nat
  casualties_active : Nat
  reserves_opp : Nat
  knocked_out_opp : Nat
  casualties_opp : Nat
  team_stats : Option (TeamStats × TeamStats)
  turn_info : Option TurnInfo
  active_player_present : Bool
  player_action_type : Option PlayerActionType
  stack_proc_types : List ProcedureType
  available_action_types : List ActionType
  is_setup : Bool
  setup_legal : Bool
  layers : List (List (List ℚ))
  deriving Repr

/-- Python's `1.0 * condition`. -/
def boolVal (b : Bool) : ℚ := if b then 1 else 0

/-- The legality flag written for one entry of `action_types` by the
"available action types" loop of `get_state`: an `END_SETUP` entry is
skipped (left 0) when setup is illegal; a `Formation` entry (the
`isinstance(action_type, Formation)` case) is legal exactly during setup;
every other entry is checked against the engine's available-action set. -/
def aaFlag (g : GameObs) : SimpleEntry → ℚ
  | Sum.inl t =>
      if t = ActionType.END_SETUP ∧ g.setup_legal = false then 0
      else boolVal (t ∈ g.available_action_types)
  | Sum.inr _ => if g.is_setup then 1 else 0

/-- The `aa_types` vector of `get_state`, one flag per entry of
`action_types`. -/
def aaTypes (c : EnvConf) (g : GameObs) : List ℚ :=
  c.action_types.map (aaFlag g)

/-- The 11 values written for one team's stats, in source order. -/
def teamStatsVals (t : TeamStats) : List ℚ :=
  [ t.score / 16, t.turn / 8, t.rerolls_start / 8, t.rerolls / 8,
    t.ass_coaches / 8, t.cheerleaders / 8, t.bribes / 4, t.babes / 4,
    t.apothecaries / 2, boolVal (!t.reroll_used), t.fame / 2 ]

/-- The non-spatial slots written by `get_state`, in write order.  A
skipped block (`take(n, index)`) leaves that many zero slots, since the
working buffer is zero-initialized.  The procedures loop
`zip(index, procedures)` draws and discards one extra value from the
`count()` iterator after the 23 procedure flags, so one more zero slot is
left before `next_index = next(index)` places `aa_types`. -/
def nonSpatialData (c : EnvConf) (g : GameObs) : List ℚ :=
  [ g.half - 1, g.round / 8 ]
  ++ [ boolVal (g.weather = .SWELTERING_HEAT),
       boolVal (g.weather = .VERY_SUNNY),
       boolVal (g.weather = .NICE),
       boolVal (g.weather = .POURING_RAIN),
       boolVal (g.weather = .BLIZZARD) ]
  ++ [ boolVal g.current_team_eq_active,
       boolVal g.kicking_first_half_eq_active,
       boolVal g.kicking_this_drive_eq_active,
       (g.reserves_active : ℚ) / 16, (g.knocked_out_active : ℚ) / 16,
       (g.casualties_active : ℚ) / 16,
       (g.reserves_opp : ℚ) / 16, (g.knocked_out_opp : ℚ) / 16,
       (g.casualties_opp : ℚ) / 16 ]
  ++ (match g.team_stats with
      | some (a, o) => teamStatsVals a ++ teamStatsVals o
      | none => List.replicate 22 0)
  ++ (match g.turn_info with
      | some ti =>
          [ boolVal ti.blitz_available, boolVal ti.pass_available,
            boolVal ti.handoff_available, boolVal ti.foul_available,
            boolVal ti.is_blitz, boolVal ti.is_quick_snap ]
      | none => List.replicate 6 0)
  ++ (if g.active_player_present then
        [ boolVal (g.player_action_type = some .MOVE),
          boolVal (g.player_action_type = some .BLOCK),
          boolVal (g.player_action_type = some .BLITZ),
          boolVal (g.player_action_type = some .PASS),
          boolVal (g.player_action_type = some .HANDOFF),
          boolVal (g.player_action_type = some .FOUL) ]
      else List.replicate 6 0)
  ++ tracked_procedures.map (fun p => boolVal (p ∈ g.stack_proc_types))
  ++ [0]
  ++ aaTypes c g

/-- The non-spatial part of `get_state` as a state transition on the
instance field `num_non_spatial_observables`: the first call uses a
2000-slot zero buffer and truncates to the slots written; later calls use
a buffer of the remembered length.  `none` marks a numpy out-of-bounds
write. -/
def getStateNonSpatial (c : EnvConf) (remembered : Option Nat) (g : GameObs) :
    Option (List ℚ × Option Nat) :=
  let written := nonSpatialData c g
  match remembered with
  | none =>
      if written.length ≤ 2000 then some (written, some written.length)
      else none
  | some n =>
      if written.length ≤ n then
        some (written ++ List.replicate (n - written.length) 0, some n)
      else none

/-- The spatial observation: one board per configured layer, mirrored
along the width axis when flipping (`np.flip(..., axis=2)`). -/
def spatialObs (g : GameObs) (flip : Bool) : List (List (List ℚ)) :=
  g.layers.map (fun board => if flip then board.map List.reverse else board)

/-- The boolean action mask computed at the end of `get_state`: the
simple-action prefix of `aa_types` concatenated with the flattened first
`len(positional_action_types)` spatial layers, thresholded at `> 0`. -/
def rawActionMask (c : EnvConf) (g : GameObs) (flip : Bool) : List Bool :=
  let aa := aaTypes c g
  let spatial := (spatialObs g flip).take positional_action_types.length
  let mask := aa.take c.simple_action_types.length ++ (spatial.map List.flatten).flatten
  mask.map (fun v => decide (0 < v))

/-- The action mask as returned by `get_state`: the `assert True in
action_mask` turns an all-false mask into a fatal assertion (`none`). -/
def getStateMask (c : EnvConf) (g : GameObs) (flip : Bool) : Option (List Bool) :=
  let mask := rawActionMask c g flip
  if mask.any id then some mask else none

/-! ## Step return and wrappers -/

/-- Model of `BotBowlEnv.get_step_return`: the observation triple (or a triple of
absent values when the game is over or observation is skipped), reward
0.0, the engine's game-over flag, and an empty info mapping.  The freshly
computed `get_state` triple is passed in as `state`. -/
def get_step_return {A B C : Type} (game_over : Bool) (skip_observation : Bool)
    (state : A × B × C) :
    (Option A × Option B × Option C) × ℚ × Bool × List (String × ℚ) :=
  let done := game_over
  let obs : Option A × Option B × Option C :=
    if done || skip_observation then (none, none, none)
    else (some state.1, some state.2.1, some state.2.2)
  let info : List (String × ℚ) := []
  let reward : ℚ := 0
  (obs, reward, done, info)

/-- Model of `RewardWrapper.step` after the delegate call: the delegate returned
`(obs, reward, done, info)`; the wrapper adds the home reward function's
output when the home team is active, the away function's output when the
away team is active and such a function was supplied, and nothing
otherwise. -/
def rewardWrapperStep {A B G : Type} (home_reward_func : G → ℚ)
    (away_reward_func : Option (G → ℚ)) (g : G)
    (active_eq_home : Bool) (active_eq_away : Bool)
    (obs : A) (reward : ℚ) (done : Bool) (info : B) : A × ℚ × Bool × B :=
  let r :=
    if active_eq_home then reward + home_reward_func g
    else if active_eq_away then
      match away_reward_func with
      | some f => reward + f g
      | none => reward
    else reward
  (obs, r, done, info)

/-- The ball carrier as seen by `PPCGWrapper.step`: its team and
x-coordinate. -/
structure Carrier where
  team_eq_home : Bool
  pos_x : Int
  deriving DecidableEq, Repr

/-- One engine-affecting effect performed by `PPCGWrapper.step`, in
order: a delegated `env.step(idx, skip_observation)` call, a
`stack.push(Touchdown(...))`, or a `set_available_actions()` call. -/
inductive PPCGEffect where
  | envStep (action_idx : Option Nat) (skip_observation : Bool)
  | pushTouchdown
  | setAvailableActions
  deriving DecidableEq, Repr

/-- Model of `PPCGWrapper.step` as the ordered list of engine-affecting effects it
performs.  `ball_carrier` is the carrier after the delegated step.
`(1 - difficulty) * 25` is nonnegative inside the `difficulty < 1` branch,
so Python's truncating `int()` is `Int.floor` there. -/
def ppcgStep (difficulty : ℚ) (ball_carrier : Option Carrier) (action : Nat) :
    List PPCGEffect :=
  [PPCGEffect.envStep (some action) true]
  ++ (if difficulty < 1 then
        match ball_carrier with
        | some bc =>
            if bc.team_eq_home then
              let extra_endzone_squares : Int := Int.floor ((1 - difficulty) * 25)
              let distance_to_endzone : Int := bc.pos_x - 1
              if distance_to_endzone ≤ extra_endzone_squares then
                [PPCGEffect.pushTouchdown, PPCGEffect.setAvailableActions,
                 PPCGEffect.envStep none true]
              else []
            else []
        | none => []
      else [])

/-! ## Web hosting API (`botbowl/web/api.py`) -/

/-- The name pattern `get_config_name(board_size)`, the string
"web-" followed by the board size and ".json". -/
def get_config_name (board_size : Nat) : String :=
  "web-" ++ toString board_size ++ ".json"

/-- The `game_modes` table: five named game modes mapped to configuration
file names, in source order. -/
def game_modes : List (String × String) :=
  [ ("standard", get_config_name 11),
    ("7v7", get_config_name 7),
    ("5v5", get_config_name 5),
    ("3v3", get_config_name 3),
    ("1v1", get_config_name 1) ]

/-- Python's `game_modes[game_mode]`: `none` models the `KeyError`. -/
def gameModesLookup (game_mode : String) : Option String :=
  (game_modes.find? (fun p => p.1 == game_mode)).map Prod.snd

/-- An agent as seen by the web API: only its `human` flag matters. -/
structure WebAgent where
  human : Bool
  deriving DecidableEq, Repr

/-- The game-mode name `new_game` uses when the caller leaves the
argument at its default: the source reads `game_mode='Standard'`. -/
def default_game_mode : String := "Standard"

/-- The configuration-name resolution done by `new_game`: both agents are
asserted present, then the game-mode name is looked up in `game_modes`.
`none` models a failed assertion or a `KeyError`. -/
def newGameConfigName (away_agent home_agent : Option WebAgent)
    (game_mode : String) : Option String :=
  match away_agent, home_agent with
  | some _, some _ => gameModesLookup game_mode
  | _, _ => none

/-- What the web `step` function reads from the looked-up game: whether it
has started, the team owning each available action choice (`true` = home
team) in order, and the two agents' human flags. -/
structure WebGameView where
  is_started : Bool
  available_teams : List Bool
  home_human : Bool
  away_human : Bool
  deriving DecidableEq, Repr

/-- The start-game action injected by the web `step` function. -/
def startGameAction : GameAction := ⟨ActionType.START_GAME, none, none⟩

/-- The web API `step(game_id, action)` function, as the list of actions
it feeds to `game.step`: if the game has not started, the first available
action choice's agent is not human and the other agent is human, it steps
with a start-game action and returns; otherwise it steps with the given
action.  `none` models indexing an empty available-action list. -/
def webStep (g : WebGameView) (action : GameAction) : Option (List GameAction) :=
  if g.is_started = false then
    match g.available_teams.head? with
    | none => none
    | some team_eq_home =>
        let agent_human := if team_eq_home then g.home_human else g.away_human
        let other_agent_human := if team_eq_home then g.away_human else g.home_human
        if agent_human = false ∧ other_agent_human = true then
          some [startGameAction]
        else
          some [action]
  else
    some [action]

/-! ## Replay pagination (`get_replay`, `get_replay_steps`) -/

/-- The view-building loop of `get_replay`: copies cached steps in order
until 100 entries have been collected (dict keys are distinct, so each
kept entry grows the result by one). -/
def replayViewLoop {α : Type} (acc : List (Nat × α)) :
    List (Nat × α) → List (Nat × α)
  | [] => acc
  | (i, s) :: rest =>
      if 100 ≤ acc.length then acc
      else replayViewLoop (acc ++ [(i, s)]) rest

/-- The step window served by `get_replay`: at most the first 100 steps
of the cached full step history. -/
def getReplayVisibleSteps {α : Type} (full : List (Nat × α)) : List (Nat × α) :=
  replayViewLoop [] full

/-- The windowing loop of `get_replay_steps`: the counter `c` advances on
both skipped and kept entries; collection stops at `num_steps` entries. -/
def replayStepsLoop {α : Type} (acc : List (Nat × α)) (c from_idx num_steps : Nat) :
    List (Nat × α) → List (Nat × α)
  | [] => acc
  | (i, s) :: rest =>
      if c < from_idx then replayStepsLoop acc (c + 1) from_idx num_steps rest
      else if num_steps ≤ acc.length then acc
      else replayStepsLoop (acc ++ [(i, s)]) (c + 1) from_idx num_steps rest

/-- Model of `get_replay_steps(replay_id, from_idx, num_steps)`: an empty mapping
when the replay was never loaded into the cache, otherwise a window of up
to `num_steps` steps starting at position `from_idx` of the cached full
step history. -/
def getReplaySteps {α : Type} (loaded : Bool) (full : List (Nat × α))
    (from_idx num_steps : Nat) : List (Nat × α) :=
  if loaded then replayStepsLoop [] 0 from_idx num_steps full
  else []

/-- A concrete engine-state snapshot on a 1×1 board, used to evaluate the
observation functions on explicit inputs. -/
def sampleObs : GameObs :=
  { half := 1
    round := 0
    weather := WeatherType.NICE
    current_team_eq_active := false
    kicking_first_half_eq_active := false
    kicking_this_drive_eq_active := false
    reserves_active := 0
    knocked_out_active := 0
    casualties_active := 0
    reserves_opp := 0
    knocked_out_opp := 0
    casualties_opp := 0
    team_stats := none
    turn_info := none
    active_player_present := false
    player_action_type := none
    stack_proc_types := []
    available_action_types := [ActionType.START_GAME]
    is_setup := false
    setup_legal := true
    layers := List.replicate 17 [[1]] }

/-! ## Theorems -/

/-- C9: every `get_step_return` has reward exactly 0 and an empty info
mapping; the observation component is a triple of absent values exactly
when the game is over or observation skipping was requested, and is the
freshly computed observation triple otherwise; the done flag is the
engine's game-over state. -/
theorem get_step_return_spec {A B C : Type} (game_over skip_observation : Bool)
    (state : A × B × C) :
    (get_step_return game_over skip_observation state).2.1 = 0 ∧
    (get_step_return game_over skip_observation state).2.2.2 = [] ∧
    (get_step_return game_over skip_observation state).2.2.1 = game_over ∧
    ((get_step_return game_over skip_observation state).1 = (none, none, none) ↔
      (game_over = true ∨ skip_observation = true)) ∧
    (game_over = false → skip_observation = false →
      (get_step_return game_over skip_observation state).1 =
        (some state.1, some state.2.1, some state.2.2)) := by
  cases game_over <;> cases skip_observation <;>
    simp [get_step_return]

/-- Witness for C9 at a concrete input: a non-done, non-skipped step
returns the computed triple with reward 0. -/
theorem get_step_return_spec_witness :
    (get_step_return false false ((1, 2, 3) : Nat × Nat × Nat)).1 =
      (some 1, some 2, some 3) ∧
    (get_step_return false false ((1, 2, 3) : Nat × Nat × Nat)).2.1 = 0 := by
  refine ⟨(get_step_return_spec false false ((1, 2, 3) : Nat × Nat × Nat)).2.2.2.2 rfl rfl, ?_⟩
  exact (get_step_return_spec false false ((1, 2, 3) : Nat × Nat × Nat)).1

/-- C7: the reward wrapper returns the delegate's reward plus the home
reward function's output when the home team is active; plus the away
function's output when the away team is active and one was supplied; the
delegate's reward unmodified when the away team is active with no away
function or when no team is active.  Observation, done flag and info pass
through unchanged. -/
theorem rewardWrapperStep_spec {A B G : Type} (home_reward_func : G → ℚ)
    (away_reward_func : Option (G → ℚ)) (g : G)
    (active_eq_home active_eq_away : Bool)
    (obs : A) (reward : ℚ) (done : Bool) (info : B) :
    (active_eq_home = true →
      rewardWrapperStep home_reward_func away_reward_func g active_eq_home
          active_eq_away obs reward done info =
        (obs, reward + home_reward_func g, done, info)) ∧
    (active_eq_home = false → active_eq_away = true →
      ∀ f, away_reward_func = some f →
      rewardWrapperStep home_reward_func away_reward_func g active_eq_home
          active_eq_away obs reward done info =
        (obs, reward + f g, done, info)) ∧
    (active_eq_home = false → active_eq_away = true → away_reward_func = none →
      rewardWrapperStep home_reward_func away_reward_func g active_eq_home
          active_eq_away obs reward done info = (obs, reward, done, info)) ∧
    (active_eq_home = false → active_eq_away = false →
      rewardWrapperStep home_reward_func away_reward_func g active_eq_home
          active_eq_away obs reward done info = (obs, reward, done, info)) := by
  cases active_eq_home <;> cases active_eq_away <;>
    cases away_reward_func <;>
    simp [rewardWrapperStep]

/-- Witness for C7: with a home function constantly 1 and no away
function, stepping with the away team active leaves the base reward 0
unmodified, and with the home team active yields total reward 1. -/
theorem rewardWrapperStep_spec_witness :
    rewardWrapperStep (fun _ : Nat => (1 : ℚ)) none 0 false true
        (0 : Nat) 0 false (0 : Nat) = (0, 0, false, 0) ∧
    rewardWrapperStep (fun _ : Nat => (1 : ℚ)) none 0 true false
        (0 : Nat) 0 false (0 : Nat) = (0, 0 + 1, false, 0) := by
  refine ⟨(rewardWrapperStep_spec (fun _ : Nat => (1 : ℚ)) none 0 false true
      (0 : Nat) 0 false (0 : Nat)).2.2.1 rfl rfl rfl, ?_⟩
  exact (rewardWrapperStep_spec (fun _ : Nat => (1 : ℚ)) none 0 true false
      (0 : Nat) 0 false (0 : Nat)).1 rfl

/-- C6: with difficulty below 1, a home-team ball carrier whose
x-coordinate minus 1 is at most `floor((1 - difficulty) * 25)` makes the
progressive-difficulty wrapper push a touchdown procedure, recompute the
legal-action set and drive one further no-action engine step after the
delegated step; with difficulty at least 1, no carrier, an away-team
carrier, or a carrier too far from the endzone, only the delegated step
happens. -/
theorem ppcgStep_spec (difficulty : ℚ) (ball_carrier : Option Carrier) (action : Nat) :
    (difficulty < 1 → ∀ bc, ball_carrier = some bc → bc.team_eq_home = true →
      bc.pos_x - 1 ≤ Int.floor ((1 - difficulty) * 25) →
      ppcgStep difficulty ball_carrier action =
        [PPCGEffect.envStep (some action) true, PPCGEffect.pushTouchdown,
         PPCGEffect.setAvailableActions, PPCGEffect.envStep none true]) ∧
    (1 ≤ difficulty →
      ppcgStep difficulty ball_carrier action = [PPCGEffect.envStep (some action) true]) ∧
    (ball_carrier = none →
      ppcgStep difficulty ball_carrier action = [PPCGEffect.envStep (some action) true]) ∧
    (∀ bc, ball_carrier = some bc → bc.team_eq_home = false →
      ppcgStep difficulty ball_carrier action = [PPCGEffect.envStep (some action) true]) ∧
    (difficulty < 1 → ∀ bc, ball_carrier = some bc → bc.team_eq_home = true →
      Int.floor ((1 - difficulty) * 25) < bc.pos_x - 1 →
      ppcgStep difficulty ball_carrier action = [PPCGEffect.envStep (some action) true]) := by
  refine ⟨?_, ?_, ?_, ?_, ?_⟩
  · intro hd bc hbc hteam hdist
    subst hbc
    simp [ppcgStep, hd, hteam, hdist]
  · intro hd
    have hnd : ¬ difficulty < 1 := not_lt.mpr hd
    simp [ppcgStep, hnd]
  · intro hbc
    subst hbc
    simp [ppcgStep]
  · intro bc hbc hteam
    subst hbc
    simp [ppcgStep, hteam]
  · intro hd bc hbc hteam hdist
    subst hbc
    simp [ppcgStep, hd, hteam, not_le.mpr hdist]

/-- Witness for C6: at difficulty 3/5 a home carrier at x = 6 is 5 squares
from the endzone with 10 extra endzone squares, so a touchdown is forced;
at difficulty 1 no extra engine activity happens. -/
theorem ppcgStep_spec_witness :
    ppcgStep (3 / 5) (some ⟨true, 6⟩) 7 =
      [PPCGEffect.envStep (some 7) true, PPCGEffect.pushTouchdown,
       PPCGEffect.setAvailableActions, PPCGEffect.envStep none true] ∧
    ppcgStep 1 (some ⟨true, 6⟩) 7 = [PPCGEffect.envStep (some 7) true] := by
  constructor
  · refine (ppcgStep_spec (3 / 5) (some ⟨true, 6⟩) 7).1 (by norm_num)
      ⟨true, 6⟩ rfl rfl ?_
    have h : ((1 - 3 / 5 : ℚ)) * 25 = 10 := by norm_num
    rw [h]
    norm_num
  · exact (ppcgStep_spec 1 (some ⟨true, 6⟩) 7).2.1 le_rfl

/-- C2 counterexample: a not-yet-started game whose first available action
belongs to the non-human home agent while the away agent is human.  The
web `step` function steps the engine only with the injected start-game
action and returns; the caller's action (here an end-turn action) is not
stepped, contradicting the claim that it is stepped afterwards. -/
theorem webStep_counterexample :
    webStep ⟨false, [true], false, true⟩ ⟨ActionType.END_TURN, none, none⟩ =
      some [startGameAction] ∧
    (⟨ActionType.END_TURN, none, none⟩ : GameAction) ∉ [startGameAction] := by
  decide

/-- C2 (amended): when the game has not started, the first available
action belongs to a non-human agent and the other side's agent is human,
the web `step` function steps the engine with a start-game action only
and returns, without stepping the caller's action; in every other case it
steps the engine with the given action exactly once. -/
theorem webStep_spec (g : WebGameView) (a : GameAction) (team_eq_home : Bool)
    (hav : g.available_teams.head? = some team_eq_home) :
    (g.is_started = false →
      (if team_eq_home then g.home_human else g.away_human) = false →
      (if team_eq_home then g.away_human else g.home_human) = true →
      webStep g a = some [startGameAction]) ∧
    (g.is_started = true → webStep g a = some [a]) ∧
    (g.is_started = false →
      ¬((if team_eq_home then g.home_human else g.away_human) = false ∧
        (if team_eq_home then g.away_human else g.home_human) = true) →
      webStep g a = some [a]) := by
  refine ⟨?_, ?_, ?_⟩
  · intro hs hagent hother
    simp [webStep, hs, hav, hagent, hother]
  · intro hs
    simp [webStep, hs]
  · intro hs hneg
    cases team_eq_home <;> simp at hneg <;>
      simp [webStep, hs, hav] <;>
      intro h1 h2 <;> simp_all

/-- Witness for C2 (amended) at concrete inputs: the injection case and a
case where both sides are bots, which steps the caller's action. -/
theorem webStep_spec_witness :
    webStep ⟨false, [false], true, false⟩ ⟨ActionType.END_TURN, none, none⟩ =
      some [startGameAction] ∧
    webStep ⟨false, [true], false, false⟩ ⟨ActionType.END_TURN, none, none⟩ =
      some [⟨ActionType.END_TURN, none, none⟩] := by
  constructor
  · exact (webStep_spec ⟨false, [false], true, false⟩
      ⟨ActionType.END_TURN, none, none⟩ false rfl).1 rfl rfl rfl
  · exact (webStep_spec ⟨false, [true], false, false⟩
      ⟨ActionType.END_TURN, none, none⟩ true rfl).2.2 rfl (by simp)

/-- C3: the web API's `new_game`, called with both agents supplied and the
game mode left at its default value `'Standard'`, fails the game-mode
lookup (`KeyError`) before any game is created: the five-entry game-mode
table only carries the lowercase key `'standard'`, which does resolve to
the standard configuration name. -/
theorem new_game_default_mode_fails :
    newGameConfigName (some ⟨false⟩) (some ⟨false⟩) default_game_mode = none ∧
    gameModesLookup "standard" = some "web-11.json" := by
  constructor <;> rfl

/-- The `get_replay` view loop collects the first `100 - acc.length`
remaining entries. -/
theorem replayViewLoop_eq {α : Type} (l : List (Nat × α)) :
    ∀ acc : List (Nat × α),
      replayViewLoop acc l = acc ++ l.take (100 - acc.length) := by
  induction l with
  | nil => intro acc; simp [replayViewLoop]
  | cons p rest ih =>
      intro acc
      obtain ⟨i, s⟩ := p
      by_cases h : 100 ≤ acc.length
      · have h0 : 100 - acc.length = 0 := Nat.sub_eq_zero_of_le h
        simp [replayViewLoop, h, h0]
      · have h1 : 1 ≤ 100 - acc.length := by omega
        rw [replayViewLoop, if_neg h, ih]
        have h2 : 100 - (acc ++ [(i, s)]).length = 100 - acc.length - 1 := by
          simp; omega
        rw [h2]
        cases hn : 100 - acc.length with
        | zero => omega
        | succ k =>
            simp [List.take_succ_cons, List.append_assoc]

/-- The `get_replay_steps` loop returns the window of the remaining list
that starts `from_idx - c` entries in and holds `num_steps - acc.length`
entries. -/
theorem replayStepsLoop_eq {α : Type} (l : List (Nat × α)) :
    ∀ (acc : List (Nat × α)) (c from_idx num_steps : Nat),
      replayStepsLoop acc c from_idx num_steps l =
        acc ++ (l.drop (from_idx - c)).take (num_steps - acc.length) := by
  induction l with
  | nil => intro acc c f n; simp [replayStepsLoop]
  | cons p rest ih =>
      intro acc c f n
      obtain ⟨i, s⟩ := p
      by_cases hc : c < f
      · have hd : f - c = (f - (c + 1)) + 1 := by omega
        rw [replayStepsLoop, if_pos hc, ih, hd, List.drop_succ_cons]
      · have hd : f - c = 0 := by omega
        by_cases hn : n ≤ acc.length
        · have h0 : n - acc.length = 0 := Nat.sub_eq_zero_of_le hn
          simp [replayStepsLoop, hc, hn, h0]
        · rw [replayStepsLoop, if_neg hc, if_neg hn, ih]
          have hf1 : f - (c + 1) = 0 := by omega
          rw [hd, hf1]
          have h2 : n - (acc ++ [(i, s)]).length = n - acc.length - 1 := by
            simp; omega
          rw [h2]
          cases hm : n - acc.length with
          | zero => omega
          | succ k =>
              simp [List.take_succ_cons, List.append_assoc]

/-- C8: `get_replay` exposes at most the first 100 steps of the cached
full step history; `get_replay_steps(replay_id, from_idx, num_steps)`
returns the up-to-`num_steps`-entry window of the cached history starting
at position `from_idx` when the replay is loaded, and an empty mapping
when it was never loaded. -/
theorem replay_pagination_spec {α : Type} (full : List (Nat × α))
    (from_idx num_steps : Nat) :
    getReplayVisibleSteps full = full.take 100 ∧
    (getReplayVisibleSteps full).length ≤ 100 ∧
    getReplaySteps true full from_idx num_steps =
      (full.drop from_idx).take num_steps ∧
    getReplaySteps false full from_idx num_steps = [] := by
  have hview : getReplayVisibleSteps full = full.take 100 := by
    rw [getReplayVisibleSteps, replayViewLoop_eq]
    simp
  refine ⟨hview, ?_, ?_, rfl⟩
  · rw [hview]
    simp [List.length_take]
  · rw [getReplaySteps, if_pos rfl, replayStepsLoop_eq]
    simp

/-- The list `simple_action_types` has the 20 fixed entries followed by the
formations. -/
theorem sats_length (c : EnvConf) :
    c.simple_action_types.length = 20 + c.formations.length := by
  simp [EnvConf.simple_action_types, base_simple_action_types]
  omega

/-- An `ActionType` entry is in `simple_action_types` exactly when it is
one of the 20 fixed simple action types (a formation entry never equals an
`ActionType`). -/
theorem inl_mem_sats_iff (c : EnvConf) (t : ActionType) :
    (Sum.inl t : SimpleEntry) ∈ c.simple_action_types ↔
      t ∈ base_simple_action_types := by
  simp [EnvConf.simple_action_types]

/-- C10: for every `EnvConf` (any formations), `END_SETUP` is not an
entry of `action_types`; consequently the `END_SETUP` special case in the
legality loop of `get_state` never fires, so the computed legality flags
do not depend on the engine's setup-legality answer; `END_SETUP` only
appears as the trailing action when a formation index is decoded. -/
theorem end_setup_unreachable (c : EnvConf) :
    (Sum.inl ActionType.END_SETUP : SimpleEntry) ∉ c.action_types ∧
    (∀ (g : GameObs) (b : Bool),
      aaTypes c { g with setup_legal := b } = aaTypes c g) ∧
    (∀ (w h_ : Nat) (flip : Bool) (i : Nat), 20 ≤ i → i < 20 + c.formations.length →
      ∃ l, compute_action ⟨c, w, h_⟩ (some i) flip = some l ∧
        l.getLast? = some (some ⟨ActionType.END_SETUP, none, none⟩)) := by
  have h1 : (Sum.inl ActionType.END_SETUP : SimpleEntry) ∉ c.action_types := by
    simp [EnvConf.action_types, EnvConf.simple_action_types,
      base_simple_action_types, positional_action_types]
  refine ⟨h1, ?_, ?_⟩
  · intro g b
    unfold aaTypes
    apply List.map_congr_left
    intro x hx
    cases x with
    | inl t =>
        have ht : t ≠ ActionType.END_SETUP := by
          intro he
          exact h1 (he ▸ hx)
        simp [aaFlag, ht]
    | inr f => rfl
  · intro w h_ flip i hi1 hi2
    have hslen : c.simple_action_types.length = 20 + c.formations.length :=
      sats_length c
    have hflen : i - 20 < c.formations.length := by omega
    have hsg : c.simple_action_types.get? i =
        some (Sum.inr (c.formations.get ⟨i - 20, hflen⟩)) := by
      rw [EnvConf.simple_action_types,
        List.get?_append_right (by simp [base_simple_action_types]; omega)]
      have h20 : (base_simple_action_types.map (Sum.inl (β := Formation))).length = 20 := by
        simp [base_simple_action_types]
      rw [h20, List.get?_map, List.get?_eq_get hflen]
      rfl
    refine ⟨(c.formations.get ⟨i - 20, hflen⟩).setup_actions.map some ++
        [some ⟨ActionType.END_SETUP, none, none⟩], ?_, ?_⟩
    · have hlt : i < c.simple_action_types.length := by omega
      have hge : c.simple_action_types.length - c.formations.length ≤ i := by omega
      simp only [compute_action]
      rw [if_pos hlt, if_pos hge, hsg]
    · exact List.getLast?_concat _

/-- Witness for C10 at a concrete configuration with one formation:
decoding its index (20) yields a list ending in an `END_SETUP` action. -/
theorem end_setup_unreachable_witness :
    (Sum.inl ActionType.END_SETUP : SimpleEntry) ∉
        (EnvConf.mk [⟨"wedge", []⟩]).action_types ∧
    ∃ l, compute_action ⟨EnvConf.mk [⟨"wedge", []⟩], 1, 1⟩ (some 20) false = some l ∧
      l.getLast? = some (some ⟨ActionType.END_SETUP, none, none⟩) :=
  ⟨(end_setup_unreachable (EnvConf.mk [⟨"wedge", []⟩])).1,
   (end_setup_unreachable (EnvConf.mk [⟨"wedge", []⟩])).2.2 1 1 false 20
     (by decide) (by decide)⟩

/-- A board whose rows all have length `w` flattens to `rows * w` cells. -/
theorem flatten_rows_length (b : List (List ℚ)) (w : Nat)
    (hr : ∀ r ∈ b, r.length = w) : b.flatten.length = b.length * w := by
  induction b with
  | nil => simp
  | cons r rest ih =>
      have hrw : r.length = w := hr r (by simp)
      have ihr : rest.flatten.length = rest.length * w :=
        ih (fun r2 h2 => hr r2 (by simp [h2]))
      simp [hrw, ihr]
      ring

/-- A stack of `h * w` boards flattens to `count * (h * w)` cells. -/
theorem boards_flatten_length (boards : List (List (List ℚ))) (w h_ : Nat)
    (hb : ∀ b ∈ boards, b.length = h_ ∧ ∀ r ∈ b, r.length = w) :
    ((boards.map List.flatten).flatten).length = boards.length * (h_ * w) := by
  induction boards with
  | nil => simp
  | cons b rest ih =>
      have hbl : b.flatten.length = h_ * w := by
        rw [flatten_rows_length b w (hb b (by simp)).2, (hb b (by simp)).1]
      have ihr := ih (fun b2 h2 => hb b2 (by simp [h2]))
      simp [hbl, ihr]
      ring

/-- The vector `aa_types` has one flag per entry of `action_types`. -/
theorem aaTypes_length (c : EnvConf) (g : GameObs) :
    (aaTypes c g).length = c.action_types.length := by
  simp [aaTypes]

/-- The list `action_types` holds the simple entries followed by the 17 positional
entries. -/
theorem action_types_length (c : EnvConf) :
    c.action_types.length = c.simple_action_types.length + 17 := by
  simp [EnvConf.action_types, positional_action_types]

/-- C4: the boolean action mask has length (count of simple action types)
+ (count of positional action types × board squares); whenever `get_state`
returns, the mask contains at least one true entry; a state whose mask
would be all-false trips the fatal assertion instead of returning. -/
theorem action_mask_spec (c : EnvConf) (g : GameObs) (flip : Bool) (w h_ : Nat)
    (hlen : 17 ≤ g.layers.length)
    (hshape : ∀ b ∈ g.layers.take 17, b.length = h_ ∧ ∀ r ∈ b, r.length = w) :
    (rawActionMask c g flip).length =
      c.simple_action_types.length + positional_action_types.length * (h_ * w) ∧
    (∀ m, getStateMask c g flip = some m →
      m = rawActionMask c g flip ∧ m.any id = true) ∧
    ((rawActionMask c g flip).any id = false → getStateMask c g flip = none) := by
  refine ⟨?_, ?_, ?_⟩
  · have htake : (spatialObs g flip).take positional_action_types.length =
        (g.layers.take 17).map
          (fun board => if flip then board.map List.reverse else board) := by
      simp [spatialObs, positional_action_types, List.map_take]
    have hshape2 : ∀ b ∈ (g.layers.take 17).map
        (fun board => if flip then board.map List.reverse else board),
        b.length = h_ ∧ ∀ r ∈ b, r.length = w := by
      intro b hbmem
      rcases List.mem_map.mp hbmem with ⟨b0, hb0, rfl⟩
      rcases hshape b0 hb0 with ⟨hbl, hbr⟩
      cases flip
      · refine ⟨by simpa using hbl, ?_⟩
        intro r hrm
        simp only [Bool.false_eq_true, if_false] at hrm
        exact hbr r hrm
      · refine ⟨by simpa using hbl, ?_⟩
        intro r hrm
        simp only [if_true] at hrm
        rcases List.mem_map.mp hrm with ⟨r0, hr0, rfl⟩
        simp [hbr r0 hr0]
    have hcount : ((g.layers.take 17).map
        (fun board => if flip then board.map List.reverse else board)).length = 17 := by
      simp [List.length_take]
      omega
    have hspat := boards_flatten_length _ w h_ hshape2
    rw [hcount] at hspat
    have haa : ((aaTypes c g).take c.simple_action_types.length).length =
        c.simple_action_types.length := by
      simp [List.length_take, aaTypes_length, action_types_length]
    simp only [rawActionMask, List.length_map, List.length_append]
    rw [htake, hspat, haa]
    simp [positional_action_types]
  · intro m hm
    unfold getStateMask at hm
    by_cases h : (rawActionMask c g flip).any id
    · rw [if_pos h] at hm
      exact ⟨(Option.some_inj.mp hm).symm, (Option.some_inj.mp hm) ▸ h⟩
    · rw [if_neg h] at hm
      cases hm
  · intro h
    unfold getStateMask
    rw [if_neg (by simp [h])]

/-- Witness for C4 on a concrete 1×1-board state: the mask length is
20 + 17·1 and the returned mask has a true entry. -/
theorem action_mask_spec_witness :
    (rawActionMask ⟨[]⟩ sampleObs false).length =
      (EnvConf.mk []).simple_action_types.length +
        positional_action_types.length * (1 * 1) ∧
    (∀ m, getStateMask ⟨[]⟩ sampleObs false = some m →
      m = rawActionMask ⟨[]⟩ sampleObs false ∧ m.any id = true) :=
  ⟨(action_mask_spec ⟨[]⟩ sampleObs false 1 1 (by decide)
      (by decide)).1,
   (action_mask_spec ⟨[]⟩ sampleObs false 1 1 (by decide)
      (by decide)).2.1⟩

/-- The non-spatial write sequence always fills `74 + |action_types|`
slots: the skipped blocks (no active team, no turn, no active player)
leave exactly as many zero slots as the written blocks fill, and the
procedures loop leaves one extra zero slot at index 73 (zip's discarded
counter draw), placing `aa_types` at index 74. -/
theorem nonSpatialData_length (c : EnvConf) (g : GameObs) :
    (nonSpatialData c g).length = 74 + c.action_types.length := by
  have hts : (match g.team_stats with
      | some (a, o) => teamStatsVals a ++ teamStatsVals o
      | none => List.replicate 22 (0 : ℚ)).length = 22 := by
    rcases g.team_stats with _ | ⟨a, o⟩ <;> simp [teamStatsVals]
  have hti : (match g.turn_info with
      | some ti =>
          [ boolVal ti.blitz_available, boolVal ti.pass_available,
            boolVal ti.handoff_available, boolVal ti.foul_available,
            boolVal ti.is_blitz, boolVal ti.is_quick_snap ]
      | none => List.replicate 6 (0 : ℚ)).length = 6 := by
    rcases g.turn_info with _ | ti <;> simp
  have hap : (if g.active_player_present then
        [ boolVal (g.player_action_type = some .MOVE),
          boolVal (g.player_action_type = some .BLOCK),
          boolVal (g.player_action_type = some .BLITZ),
          boolVal (g.player_action_type = some .PASS),
          boolVal (g.player_action_type = some .HANDOFF),
          boolVal (g.player_action_type = some .FOUL) ]
      else List.replicate 6 (0 : ℚ)).length = 6 := by
    cases g.active_player_present <;> simp
  simp only [nonSpatialData, List.length_append, hts, hti, hap,
    List.length_map, List.length_cons, List.length_nil, aaTypes_length]
  simp [tracked_procedures]

/-- C5: the first `get_state` call writes into the 2000-slot working
buffer (provided the layout fits) and truncates the non-spatial vector to
exactly the slots written, remembering that length; every later call on
the same instance returns a vector of exactly the remembered length, and
the remembered length never changes. -/
theorem nonspatial_length_stable (c : EnvConf) (g : GameObs)
    (hbuf : 74 + c.action_types.length ≤ 2000) :
    ∃ v, getStateNonSpatial c none g = some (v, some v.length) ∧
      v = nonSpatialData c g ∧
      v.length = 74 + c.action_types.length ∧
      ∀ g' : GameObs, ∃ v',
        getStateNonSpatial c (some v.length) g' = some (v', some v.length) ∧
        v'.length = v.length := by
  have hlg := nonSpatialData_length c g
  refine ⟨nonSpatialData c g, ?_, rfl, hlg, ?_⟩
  · simp only [getStateNonSpatial]
    rw [if_pos (by omega)]
  · intro g'
    have hlg2 := nonSpatialData_length c g'
    refine ⟨nonSpatialData c g' ++
      List.replicate ((nonSpatialData c g).length - (nonSpatialData c g').length) 0,
      ?_, ?_⟩
    · simp only [getStateNonSpatial]
      rw [if_pos (by omega)]
    · simp only [List.length_append, List.length_replicate]
      omega

/-- Witness for C5 on the default configuration (no formations, 37 action
types): the first call establishes length 111 and later calls keep it. -/
theorem nonspatial_length_stable_witness :
    ∃ v, getStateNonSpatial ⟨[]⟩ none sampleObs = some (v, some v.length) ∧
      v = nonSpatialData ⟨[]⟩ sampleObs ∧
      v.length = 74 + (EnvConf.mk []).action_types.length ∧
      ∀ g' : GameObs, ∃ v',
        getStateNonSpatial ⟨[]⟩ (some v.length) g' = some (v', some v.length) ∧
        v'.length = v.length :=
  nonspatial_length_stable ⟨[]⟩ sampleObs (by decide)

/-- The function `pyIndexOf` finds its element in the left part of an append. -/
theorem pyIndexOf_append_left {α : Type} [DecidableEq α] (l1 l2 : List α) (a : α)
    (h : a ∈ l1) : pyIndexOf (l1 ++ l2) a = pyIndexOf l1 a := by
  induction l1 with
  | nil => cases h
  | cons x xs ih =>
      by_cases hx : x = a
      · simp [pyIndexOf, hx]
      · have hm : a ∈ xs := by
          rcases List.mem_cons.mp h with h1 | h1
          · exact absurd h1.symm hx
          · exact h1
        simp [pyIndexOf, hx, ih hm]

/-- The function `pyIndexOf` commutes with mapping an injective function. -/
theorem pyIndexOf_map {α β : Type} [DecidableEq α] [DecidableEq β]
    (f : α → β) (hf : Function.Injective f) (l : List α) (a : α) :
    pyIndexOf (l.map f) (f a) = pyIndexOf l a := by
  induction l with
  | nil => rfl
  | cons x xs ih =>
      by_cases hx : x = a
      · simp [pyIndexOf, hx]
      · have hfx : ¬ f x = f a := fun he => hx (hf he)
        simp [pyIndexOf, hx, hfx, ih]

/-- On a duplicate-free list, `pyIndexOf` inverts `get`. -/
theorem pyIndexOf_get {α : Type} [DecidableEq α] (l : List α) (hnd : l.Nodup) :
    ∀ (i : Nat) (h : i < l.length), pyIndexOf l (l.get ⟨i, h⟩) = i := by
  induction l with
  | nil => intro i h; simp at h
  | cons x xs ih =>
      intro i h
      cases i with
      | zero => simp [pyIndexOf]
      | succ j =>
          have hj : j < xs.length := by simpa using h
          have hget : (x :: xs).get ⟨j + 1, h⟩ = xs.get ⟨j, hj⟩ := rfl
          have hx : ¬ x = xs.get ⟨j, hj⟩ := by
            intro he
            exact (List.nodup_cons.mp hnd).1 (he ▸ List.get_mem xs j hj)
          rw [hget, pyIndexOf, if_neg hx, ih (List.nodup_cons.mp hnd).2 j hj]

/-- C1: for every valid action index that is not a formation-type index
(formation indices occupy `[20, 20 + #formations)` and decode to multiple
actions), decoding with `_compute_action` under a fixed flip choice yields
a single structured action whose re-encoding with `_compute_action_idx`
under the same flip choice returns the original index. -/
theorem compute_action_roundtrip (fs : List Formation) (w h_ : Nat)
    (flip : Bool) (i : Nat)
    (hi : i < 20 + fs.length + positional_action_types.length * (w * h_))
    (hnf : i < 20 ∨ 20 + fs.length ≤ i) :
    ∃ a : GameAction,
      compute_action ⟨⟨fs⟩, w, h_⟩ (some i) flip = some [some a] ∧
      compute_action_idx ⟨⟨fs⟩, w, h_⟩ a flip = some i := by
  have hslen : (EnvConf.mk fs).simple_action_types.length = 20 + fs.length :=
    sats_length ⟨fs⟩
  have hplen : positional_action_types.length = 17 := rfl
  rcases hnf with hlt | hge
  · -- index of a plain simple action type
    have hb : i < base_simple_action_types.length := by
      have hb20 : base_simple_action_types.length = 20 := rfl
      omega
    have hget : (EnvConf.mk fs).simple_action_types.get? i =
        some (Sum.inl (base_simple_action_types.get ⟨i, hb⟩)) := by
      rw [EnvConf.simple_action_types, List.get?_append (by simpa using hb),
        List.get?_map, List.get?_eq_get hb]
      rfl
    have h1 : i < (EnvConf.mk fs).simple_action_types.length := by omega
    have h2 : ¬((EnvConf.mk fs).simple_action_types.length -
        (EnvConf.mk fs).formations.length ≤ i) := by
      have hf : (EnvConf.mk fs).formations.length = fs.length := rfl
      omega
    have hdec : compute_action ⟨⟨fs⟩, w, h_⟩ (some i) flip =
        some [some ⟨base_simple_action_types.get ⟨i, hb⟩, none, none⟩] := by
      simp only [compute_action]
      rw [if_pos h1, if_neg h2, hget]
    have hmem : (Sum.inl (base_simple_action_types.get ⟨i, hb⟩) : SimpleEntry) ∈
        (EnvConf.mk fs).simple_action_types :=
      (inl_mem_sats_iff _ _).mpr (List.get_mem _ _ _)
    have hnodup : base_simple_action_types.Nodup := by decide
    have hidx : pyIndexOf (EnvConf.mk fs).simple_action_types
        (Sum.inl (base_simple_action_types.get ⟨i, hb⟩)) = i := by
      rw [EnvConf.simple_action_types,
        pyIndexOf_append_left _ _ _ (List.mem_map_of_mem _ (List.get_mem _ _ _)),
        pyIndexOf_map Sum.inl Sum.inl_injective,
        pyIndexOf_get _ hnodup i hb]
    refine ⟨⟨base_simple_action_types.get ⟨i, hb⟩, none, none⟩, hdec, ?_⟩
    simp only [compute_action_idx]
    rw [if_pos hmem, hidx]
  · -- positional index
    have hi17 : i < 20 + fs.length + 17 * (w * h_) := by
      rw [hplen] at hi
      exact hi
    have hsp : i - (20 + fs.length) < 17 * (w * h_) := by omega
    have hbs : 0 < w * h_ := by
      rcases Nat.eq_zero_or_pos (w * h_) with h0 | h0
      · rw [h0] at hsp; omega
      · exact h0
    have hw : 0 < w := by
      rcases Nat.eq_zero_or_pos w with h0 | h0
      · subst h0; simp at hbs
      · exact h0
    have hq : (i - (20 + fs.length)) / (w * h_) < 17 :=
      (Nat.div_lt_iff_lt_mul hbs).mpr hsp
    have hq17 : (i - (20 + fs.length)) / (w * h_) < positional_action_types.length := by
      rw [hplen]
      exact hq
    have h1 : ¬ i < (EnvConf.mk fs).simple_action_types.length := by omega
    have hdec : compute_action ⟨⟨fs⟩, w, h_⟩ (some i) flip =
        some [some ⟨positional_action_types.get
            ⟨(i - (20 + fs.length)) / (w * h_), hq17⟩,
          some ⟨(if flip then w - ((i - (20 + fs.length)) % (w * h_)) % w - 1
                 else ((i - (20 + fs.length)) % (w * h_)) % w),
                ((i - (20 + fs.length)) % (w * h_)) / w⟩, none⟩] := by
      simp only [compute_action, Env.board_squares]
      rw [if_neg h1, hslen, List.get?_eq_get hq17]
    have hd : ∀ u ∈ positional_action_types, u ∉ base_simple_action_types := by
      decide
    have htq_mem : positional_action_types.get
        ⟨(i - (20 + fs.length)) / (w * h_), hq17⟩ ∈ positional_action_types :=
      List.get_mem _ _ _
    have hnotmem : ¬((Sum.inl (positional_action_types.get
        ⟨(i - (20 + fs.length)) / (w * h_), hq17⟩) : SimpleEntry) ∈
        (EnvConf.mk fs).simple_action_types) := by
      rw [inl_mem_sats_iff]
      exact hd _ htq_mem
    have hnodup_pos : positional_action_types.Nodup := by decide
    have hpidx : pyIndexOf positional_action_types
        (positional_action_types.get ⟨(i - (20 + fs.length)) / (w * h_), hq17⟩) =
        (i - (20 + fs.length)) / (w * h_) :=
      pyIndexOf_get _ hnodup_pos _ hq17
    refine ⟨_, hdec, ?_⟩
    simp only [compute_action_idx, Env.board_squares]
    rw [if_neg hnotmem, if_pos htq_mem]
    simp only [hslen, hpidx, Option.some.injEq]
    have hmd : (w * h_) * ((i - (20 + fs.length)) / (w * h_)) +
        (i - (20 + fs.length)) % (w * h_) = i - (20 + fs.length) :=
      Nat.div_add_mod _ _
    have hmd2 : ((i - (20 + fs.length)) % (w * h_)) % w +
        ((i - (20 + fs.length)) % (w * h_)) / w * w =
        (i - (20 + fs.length)) % (w * h_) :=
      Nat.mod_add_div' _ _
    have hxw : ((i - (20 + fs.length)) % (w * h_)) % w < w := Nat.mod_lt _ hw
    cases flip <;> simp only [Bool.false_eq_true, if_false, if_true] <;> omega

/-- Witness for C1: index 0 on an empty-formation 1×1 configuration
decodes to the start-game action, which re-encodes to 0. -/
theorem compute_action_roundtrip_witness :
    ∃ a : GameAction,
      compute_action ⟨⟨[]⟩, 1, 1⟩ (some 0) false = some [some a] ∧
      compute_action_idx ⟨⟨[]⟩, 1, 1⟩ a false = some 0 :=
  compute_action_roundtrip [] 1 1 false 0 (by decide) (Or.inl (by decide))

end BotBowl
